/-
Verification of the ClawLens history subsystem (`history.py`): the
SQLite-backed `HistoryDB` store and the `HistoryCollector` background
collector.  SQLite REAL columns are modelled by `ℚ` (exact arithmetic),
table rows are Lean structures kept in insertion (rowid) order, and
Python/JSON values are modelled by the inductive `JVal`.  `json.dumps`
and `json.loads` are modelled by an executable printer and a fuel-based
recursive-descent parser; the decimal rendering of rationals inside
`dumps` is abstracted (`n/d` form for non-integers), which no theorem
below depends on.
-/
import Mathlib

set_option maxHeartbeats 1000000
set_option maxRecDepth 10000

/-- JSON-compatible Python values: the universe of payloads exchanged with
the gateway and stored in the database. -/
inductive JVal where
  | null : JVal
  | bool (b : Bool) : JVal
  | num (q : ℚ) : JVal
  | str (s : String) : JVal
  | arr (xs : List JVal) : JVal
  | obj (fs : List (String × JVal)) : JVal

/-- Python truthiness of a JSON value (`if v:`). -/
def truthy : JVal → Bool
  | .null => false
  | .bool b => b
  | .num q => q ≠ 0
  | .str s => s ≠ ""
  | .arr xs => !xs.isEmpty
  | .obj fs => !fs.isEmpty

/-- Python truthiness of a `dict.get` result (`None` when the key is absent). -/
def truthyO : Option JVal → Bool
  | none => false
  | some v => truthy v

/-- `d.get(k)`: first binding of `k` in the association list, `None` if absent. -/
def jget (fs : List (String × JVal)) (k : String) : Option JVal :=
  (fs.find? (fun p => p.1 = k)).map Prod.snd

/-- `d.get(k, dflt)`. -/
def jgetD (fs : List (String × JVal)) (k : String) (dflt : JVal) : JVal :=
  (jget fs k).getD dflt

/-- Python `d[k] = v` on a dict modelled as an association list: update in
place when the key exists, append otherwise. -/
def dictSet (fs : List (String × JVal)) (k : String) (v : JVal) :
    List (String × JVal) :=
  if fs.any (fun p => p.1 = k) then
    fs.map (fun p => if p.1 = k then (k, v) else p)
  else fs ++ [(k, v)]

/-- Parse a decimal string as a Python `float(...)` would: optional sign,
integer digits, optional fractional part.  `none` models a raised
`ValueError`. -/
def parseDecimal (s : String) : Option ℚ :=
  let cs := s.data
  let (sgn, cs) : ℚ × List Char :=
    match cs with
    | '-' :: rest => (-1, rest)
    | '+' :: rest => (1, rest)
    | _ => (1, cs)
  let intDigits := cs.takeWhile Char.isDigit
  let rest := cs.dropWhile Char.isDigit
  if intDigits = [] then none
  else
    let intPart : ℕ := intDigits.foldl (fun acc c => 10 * acc + c.toNat - 48) 0
    match rest with
    | [] => some (sgn * intPart)
    | '.' :: fracCs =>
      let fracDigits := fracCs.takeWhile Char.isDigit
      let rest2 := fracCs.dropWhile Char.isDigit
      if fracDigits = [] ∨ rest2 ≠ [] then none
      else
        let fracPart : ℕ := fracDigits.foldl (fun acc c => 10 * acc + c.toNat - 48) 0
        some (sgn * (intPart + (fracPart : ℚ) / (10 : ℚ) ^ fracDigits.length))
    | _ => none

/-- Python `float(v)`: numbers pass through, booleans become 0/1, strings
are parsed as decimals; `none` models a raised `TypeError`/`ValueError`. -/
def toFloat : JVal → Option ℚ
  | .num q => some q
  | .bool b => some (if b then 1 else 0)
  | .str s => parseDecimal s
  | _ => none

/-- `HistoryCollector._safe_float`: convert to float, `None` on failure
(also when the input is `None`, i.e. an absent key). -/
def safe_float : Option JVal → Option ℚ
  | none => none
  | some v => toFloat v

/-- Rendering of a rational for `str(...)`/`json.dumps`: integers render as
integers, other rationals in `n/d` form (decimal rendering abstracted). -/
def ratRepr (q : ℚ) : String :=
  if q.den = 1 then toString q.num
  else toString q.num ++ "/" ++ toString q.den

/-- Escape one character inside a JSON string literal (quote and backslash). -/
def escChar (c : Char) : List Char :=
  if c = Char.ofNat 34 ∨ c = Char.ofNat 92 then [Char.ofNat 92, c] else [c]

/-- Quoted JSON string literal. -/
def quoteStr (s : String) : String :=
  String.mk (Char.ofNat 34 :: (s.data.flatMap escChar) ++ [Char.ofNat 34])

mutual
/-- `json.dumps` on the `JVal` model. -/
def dumps : JVal → String
  | .null => "null"
  | .bool true => "true"
  | .bool false => "false"
  | .num q => ratRepr q
  | .str s => quoteStr s
  | .arr xs => "[" ++ dumpsList xs ++ "]"
  | .obj fs => "\x7b" ++ dumpsFields fs ++ "\x7d"
  termination_by structural v => v

/-- Comma-separated rendering of array elements. -/
def dumpsList : List JVal → String
  | [] => ""
  | [x] => dumps x
  | x :: y :: xs => dumps x ++ ", " ++ dumpsList (y :: xs)
  termination_by structural l => l

/-- Comma-separated rendering of object fields. -/
def dumpsFields : List (String × JVal) → String
  | [] => ""
  | [(k, v)] => quoteStr k ++ ": " ++ dumps v
  | (k, v) :: p :: fs => quoteStr k ++ ": " ++ dumps v ++ ", " ++ dumpsFields (p :: fs)
  termination_by structural l => l
end

/-- Python `str(v)` as used on job ids: strings pass through unquoted,
other values via their JSON-style rendering. -/
def pyStr : JVal → String
  | .str s => s
  | v => dumps v

/-- Skip JSON whitespace. -/
def skipWs (cs : List Char) : List Char :=
  cs.dropWhile (fun c => c = ' ' ∨ c = '\t' ∨ c = '\n' ∨ c = '\r')

/-- Map a JSON escape character to the character it denotes. -/
def unescChar (c : Char) : Char :=
  if c = 'n' then '\n' else if c = 't' then '\t' else if c = 'r' then '\r' else c

/-- Parse a JSON string body (after the opening quote) with fuel; returns
the string contents and the remaining input. -/
def parseStrBody : ℕ → List Char → Option (List Char × List Char)
  | 0, _ => none
  | _ + 1, [] => none
  | fuel + 1, c :: cs =>
    if c = Char.ofNat 34 then some ([], cs)
    else if c = Char.ofNat 92 then
      match cs with
      | [] => none
      | e :: cs2 =>
        match parseStrBody fuel cs2 with
        | some (body, rest) => some (unescChar e :: body, rest)
        | none => none
    else
      match parseStrBody fuel cs with
      | some (body, rest) => some (c :: body, rest)
      | none => none

/-- Parse a JSON number (optional minus, digits, optional fraction). -/
def parseNum (cs : List Char) : Option (ℚ × List Char) :=
  let (sgn, cs) : ℚ × List Char :=
    match cs with
    | '-' :: rest => (-1, rest)
    | _ => (1, cs)
  let intDigits := cs.takeWhile Char.isDigit
  let rest := cs.dropWhile Char.isDigit
  if intDigits = [] then none
  else
    let intPart : ℕ := intDigits.foldl (fun acc c => 10 * acc + c.toNat - 48) 0
    match rest with
    | '.' :: fracCs =>
      let fracDigits := fracCs.takeWhile Char.isDigit
      let rest2 := fracCs.dropWhile Char.isDigit
      if fracDigits = [] then none
      else
        let fracPart : ℕ := fracDigits.foldl (fun acc c => 10 * acc + c.toNat - 48) 0
        some (sgn * (intPart + (fracPart : ℚ) / (10 : ℚ) ^ fracDigits.length), rest2)
    | _ => some (sgn * intPart, rest)

mutual
/-- Fuel-based recursive-descent JSON value parse (the model of the parsing
core of `json.loads`). -/
def parseVal : ℕ → List Char → Option (JVal × List Char)
  | 0, _ => none
  | fuel + 1, cs =>
    match skipWs cs with
    | [] => none
    | c :: rest =>
      if c = Char.ofNat 123 then
        match skipWs rest with
        | d :: rest2 =>
          if d = Char.ofNat 125 then some (.obj [], rest2)
          else
            match parseFields fuel (d :: rest2) with
            | some (fs, rest3) => some (.obj fs, rest3)
            | none => none
        | [] => none
      else if c = '[' then
        match skipWs rest with
        | d :: rest2 =>
          if d = ']' then some (.arr [], rest2)
          else
            match parseItems fuel (d :: rest2) with
            | some (xs, rest3) => some (.arr xs, rest3)
            | none => none
        | [] => none
      else if c = Char.ofNat 34 then
        match parseStrBody fuel rest with
        | some (body, rest2) => some (.str (String.mk body), rest2)
        | none => none
      else if (c :: rest).take 4 = ['t', 'r', 'u', 'e'] then
        some (.bool true, (c :: rest).drop 4)
      else if (c :: rest).take 5 = ['f', 'a', 'l', 's', 'e'] then
        some (.bool false, (c :: rest).drop 5)
      else if (c :: rest).take 4 = ['n', 'u', 'l', 'l'] then
        some (.null, (c :: rest).drop 4)
      else
        match parseNum (c :: rest) with
        | some (q, rest2) => some (.num q, rest2)
        | none => none
  termination_by structural fuel _ => fuel

/-- Parse one or more comma-separated array items. -/
def parseItems : ℕ → List Char → Option (List JVal × List Char)
  | 0, _ => none
  | fuel + 1, cs =>
    match parseVal fuel cs with
    | none => none
    | some (v, rest) =>
      match skipWs rest with
      | ',' :: rest2 =>
        match parseItems fuel rest2 with
        | some (xs, rest3) => some (v :: xs, rest3)
        | none => none
      | ']' :: rest2 => some ([v], rest2)
      | _ => none
  termination_by structural fuel _ => fuel

/-- Parse one or more comma-separated object fields. -/
def parseFields : ℕ → List Char → Option (List (String × JVal) × List Char)
  | 0, _ => none
  | fuel + 1, cs =>
    match skipWs cs with
    | c :: rest =>
      if c = Char.ofNat 34 then
        match parseStrBody fuel rest with
        | some (key, rest2) =>
          match skipWs rest2 with
          | ':' :: rest3 =>
            match parseVal fuel rest3 with
            | some (v, rest4) =>
              match skipWs rest4 with
              | ',' :: rest5 =>
                match parseFields fuel rest5 with
                | some (fs, rest6) => some ((String.mk key, v) :: fs, rest6)
                | none => none
              | d :: rest5 =>
                if d = Char.ofNat 125 then some ([(String.mk key, v)], rest5)
                else none
              | [] => none
            | none => none
          | _ => none
        | none => none
      else none
    | [] => none
  termination_by structural fuel _ => fuel
end

/-- `json.loads`: parse a complete JSON document, requiring the whole input
to be consumed; `none` models a raised `JSONDecodeError`. -/
def loads (s : String) : Option JVal :=
  match parseVal (2 * s.length + 4) s.data with
  | some (v, rest) => if skipWs rest = [] then some v else none
  | none => none

/-- One row of the `metrics` table: `ts REAL, metric TEXT, value REAL NULL,
value_text TEXT NULL` (rowid order = list order). -/
structure MetricRow where
  ts : ℚ
  metric : String
  value : Option ℚ
  value_text : Option String
deriving DecidableEq

/-- One row of the `sessions` table. -/
structure SessionRow where
  ts : ℚ
  session_key : String
  data : String
deriving DecidableEq

/-- One row of the `crons` table. -/
structure CronRow where
  ts : ℚ
  job_id : String
  data : String
deriving DecidableEq

/-- The `HistoryDB` database state: the three append-only tables, each in
insertion order. -/
structure DB where
  metrics : List MetricRow
  sessions : List SessionRow
  crons : List CronRow
deriving DecidableEq

/-- The empty database produced by `_init_db` on a fresh file. -/
def DB.empty : DB := ⟨[], [], []⟩

/-- The row built for one `(metric, value)` entry by `record_metrics`:
`isinstance(value, (int, float))` (booleans included) stores
`float(value)` in `value`, anything else stores `str(value)` in
`value_text`. -/
def metricInsert (ts : ℚ) (metric : String) (v : JVal) : MetricRow :=
  match v with
  | .num q => ⟨ts, metric, some q, none⟩
  | .bool b => ⟨ts, metric, some (if b then 1 else 0), none⟩
  | _ => ⟨ts, metric, none, some (pyStr v)⟩

/-- `HistoryDB.record_metrics(ts, data)` in its normal (dict) calling form:
one inserted row per entry, in dict iteration order. -/
def record_metrics (db : DB) (ts : ℚ) (data : List (String × JVal)) : DB :=
  { db with metrics := db.metrics ++ data.map (fun p => metricInsert ts p.1 p.2) }

/-- `HistoryDB.record_metrics(name, raw)` in its alternate calling form
(first argument a string): the timestamp is `time.time()` (the `now`
argument here) and a single row is inserted, numeric when
`isinstance(raw, (int, float))`, text (`str(raw)`) otherwise. -/
def record_metrics_str (db : DB) (now : ℚ) (metric_name : String) (raw : JVal) : DB :=
  { db with metrics := db.metrics ++ [metricInsert now metric_name raw] }

/-- The SQL bucket key `CAST(FLOOR(ts / interval) * interval AS REAL)`. -/
def bucket (interval : ℤ) (ts : ℚ) : ℚ :=
  ((Rat.floor (ts / (interval : ℚ)) : ℤ) : ℚ) * (interval : ℚ)

/-- The `WHERE` clause of `query_metrics`: matching metric name, timestamp
inside the inclusive range, non-null numeric value. -/
def metricMatch (metric : String) (from_ts to_ts : ℚ) (r : MetricRow) : Bool :=
  r.metric = metric ∧ from_ts ≤ r.ts ∧ r.ts ≤ to_ts ∧ r.value.isSome

/-- `AVG` of a list of rationals. -/
def avg (l : List ℚ) : ℚ := l.sum / (l.length : ℚ)

/-- One `GROUP BY` group of `query_metrics`: the numeric values of the
matching rows whose bucket key equals `b`. -/
def bucketVals (db : DB) (metric : String) (from_ts to_ts : ℚ)
    (interval : ℤ) (b : ℚ) : List ℚ :=
  (db.metrics.filter (metricMatch metric from_ts to_ts)).filterMap
    (fun r => if bucket interval r.ts = b then r.value else none)

/-- `HistoryDB.query_metrics`: group the matching rows by bucket key,
average the numeric values per bucket, order ascending by bucket.  (The
final Python filter dropping null averages is vacuous because every
group contains at least one non-null value.) -/
def query_metrics (db : DB) (metric : String) (from_ts to_ts : ℚ)
    (interval : ℤ) : List (ℚ × ℚ) :=
  (((db.metrics.filter (metricMatch metric from_ts to_ts)).map
      (fun r => bucket interval r.ts)).dedup.insertionSort (· ≤ ·)).map
    (fun b => (b, avg (bucketVals db metric from_ts to_ts interval b)))

/-- `HistoryDB.record_session`: appends one row with the payload serialized
by `json.dumps`. -/
def record_session (db : DB) (ts : ℚ) (session_key : String) (data : JVal) : DB :=
  { db with sessions := db.sessions ++ [⟨ts, session_key, dumps data⟩] }

/-- `HistoryDB.record_cron`: appends one row with the payload serialized by
`json.dumps`. -/
def record_cron (db : DB) (ts : ℚ) (job_id : String) (data : JVal) : DB :=
  { db with crons := db.crons ++ [⟨ts, job_id, dumps data⟩] }

/-- Python truthiness of the `Optional[str]` key filter (`if session_key:`):
both `None` and the empty string are falsy. -/
def keyFilterActive : Option String → Bool
  | some s => !(s == "")
  | none => false

/-- The `WHERE` clause of `query_sessions`: inclusive time range, plus the
key equality only when the filter argument is truthy. -/
def sessionInRange (from_ts to_ts : ℚ) (filt : Option String) (r : SessionRow) : Bool :=
  (from_ts ≤ r.ts && r.ts ≤ to_ts) &&
    (if keyFilterActive filt then r.session_key == filt.getD "" else true)

/-- The `WHERE` clause of `query_crons`. -/
def cronInRange (from_ts to_ts : ℚ) (filt : Option String) (r : CronRow) : Bool :=
  (from_ts ≤ r.ts && r.ts ≤ to_ts) &&
    (if keyFilterActive filt then r.job_id == filt.getD "" else true)

/-- The per-row body of the `query_sessions` result loop: `json.loads` the
stored text (falling back to `x7b"raw": text x7d` on a parse error — only the
`loads` call is inside the `try`), then the item assignments
`d["_ts"] = ts` and `d["_session_key"] = key`.  When the text parses to a
non-object JSON value the assignment raises an uncaught `TypeError`,
modelled as `Except.error`. -/
def sessionRecordE (r : SessionRow) : Except Unit JVal :=
  match loads r.data with
  | some (.obj fs) =>
      .ok (.obj (dictSet (dictSet fs "_ts" (.num r.ts)) "_session_key" (.str r.session_key)))
  | some _ => .error ()
  | none =>
      .ok (.obj (dictSet (dictSet [("raw", .str r.data)] "_ts" (.num r.ts))
        "_session_key" (.str r.session_key)))

/-- The per-row body of the `query_crons` result loop; symmetric to
`sessionRecordE` with `_job_id` in place of `_session_key`. -/
def cronRecordE (r : CronRow) : Except Unit JVal :=
  match loads r.data with
  | some (.obj fs) =>
      .ok (.obj (dictSet (dictSet fs "_ts" (.num r.ts)) "_job_id" (.str r.job_id)))
  | some _ => .error ()
  | none =>
      .ok (.obj (dictSet (dictSet [("raw", .str r.data)] "_ts" (.num r.ts))
        "_job_id" (.str r.job_id)))

/-- Run a fallible row transform down a list, stopping at the first raised
exception (the semantics of the Python result-building `for` loop). -/
def mapE (f : α → Except Unit β) : List α → Except Unit (List β)
  | [] => .ok []
  | x :: xs =>
    match f x with
    | .error e => .error e
    | .ok y =>
      match mapE f xs with
      | .error e => .error e
      | .ok ys => .ok (y :: ys)

/-- `HistoryDB.query_sessions`: `WHERE` + `ORDER BY ts ASC`, then the
row-transforming loop.  The result is the `sessions` list of the returned
dict. -/
def query_sessions (db : DB) (from_ts to_ts : ℚ)
    (session_key : Option String) : Except Unit (List JVal) :=
  mapE sessionRecordE
    ((db.sessions.filter (sessionInRange from_ts to_ts session_key)).insertionSort
      (fun a b => a.ts ≤ b.ts))

/-- `HistoryDB.query_crons`: symmetric to `query_sessions`, keyed by job id. -/
def query_crons (db : DB) (from_ts to_ts : ℚ)
    (job_id : Option String) : Except Unit (List JVal) :=
  mapE cronRecordE
    ((db.crons.filter (cronInRange from_ts to_ts job_id)).insertionSort
      (fun a b => a.ts ≤ b.ts))

/-- The candidate rows of `query_snapshot`: `metric = 'snapshot' AND
value_text IS NOT NULL`, as `(ts, value_text)` pairs in rowid order. -/
def snapRows (db : DB) : List (ℚ × String) :=
  db.metrics.filterMap (fun r =>
    if r.metric == "snapshot" then r.value_text.map (fun t => (r.ts, t)) else none)

/-- `ORDER BY ABS(ts - t) ASC LIMIT 1`: first row attaining the minimal
absolute distance (ties resolved by scan order, which the source leaves
to the storage engine). -/
def argminAbs (t : ℚ) : List (ℚ × String) → Option (ℚ × String)
  | [] => none
  | p :: l =>
    some ((argminAbs t l).elim p
      (fun q => if |p.1 - t| ≤ |q.1 - t| then p else q))

/-- Parse stored text, degrading to a `x7b"raw": text x7d` record on failure. -/
def parseOrRaw (s : String) : JVal :=
  match loads s with
  | some v => v
  | none => .obj [("raw", .str s)]

/-- `HistoryDB.query_snapshot`: payload of the snapshot row nearest in time,
`x7b"snapshot": x7bx7dx7d` when no snapshot row exists. -/
def query_snapshot (db : DB) (timestamp : ℚ) : JVal :=
  match argminAbs timestamp (snapRows db) with
  | none => .obj [("snapshot", .obj [])]
  | some p => .obj [("snapshot", parseOrRaw p.2)]

/-- Outcome of one `gw_invoke(method, params)` call: either a raised
exception or a returned value. -/
inductive GwResp where
  | raises : GwResp
  | val (v : JVal) : GwResp

/-- The gateway dependency of `HistoryCollector`: behaviour of
`gw_invoke` per method name and params. -/
def Gateway : Type := String → JVal → GwResp

/-- The collector's `all_data` accumulator dict. -/
abbrev AllData : Type := List (String × JVal)

/-- The `metrics_data` dict built from a `session_status` response dict:
`cost_total`, `tokens_in_total`, `tokens_out_total`, each included only
when `_safe_float` succeeds, in that build order. -/
def statusMetricsData (fs : List (String × JVal)) : List (String × JVal) :=
  (match safe_float (jget fs "cost_total") with
   | some c => [("cost_total", JVal.num c)]
   | none => []) ++
  (match safe_float (jget fs "tokens_in_total") with
   | some c => [("tokens_in_total", JVal.num c)]
   | none => []) ++
  (match safe_float (jget fs "tokens_out_total") with
   | some c => [("tokens_out_total", JVal.num c)]
   | none => [])

/-- Collection sub-step 1 (`session_status`), including its enclosing
`try/except` (a raised gateway call leaves state unchanged) and the
`isinstance(status, dict)` guard. -/
def step_session_status (gw : Gateway) (now : ℚ) : DB × AllData → DB × AllData
  | (db, ad) =>
    match gw "session_status" (.obj []) with
    | .raises => (db, ad)
    | .val status =>
      match status with
      | .obj fs =>
        let md := statusMetricsData fs
        (if md.isEmpty then db else record_metrics db now md,
         dictSet ad "session_status" status)
      | _ => (db, ad)

/-- The params dict of the `sessions_list` call. -/
def slParams : JVal := .obj [("limit", .num 50), ("messageLimit", .num 0)]

/-- Collection sub-step 2 (`sessions_list`): when the response is a dict
whose `sessions` (default `[]`) is a list, record its length as the
`sessions_active` metric and stash the raw response. -/
def step_sessions_list (gw : Gateway) (now : ℚ) : DB × AllData → DB × AllData
  | (db, ad) =>
    match gw "sessions_list" slParams with
    | .raises => (db, ad)
    | .val resp =>
      match resp with
      | .obj fs =>
        match jgetD fs "sessions" (.arr []) with
        | .arr l =>
          (record_metrics db now [("sessions_active", .num (l.length : ℚ))],
           dictSet ad "sessions_list" resp)
        | _ => (db, ad)
      | _ => (db, ad)

/-- The params dict of the `cron` call. -/
def cronParams : JVal := .obj [("action", .str "list")]

/-- Python `a or b` on two `dict.get` results. -/
def pyOr (a b : Option JVal) : Option JVal :=
  if truthyO a then a else b

/-- Python `a or dflt` where `dflt` is a final literal. -/
def pyOrV (a : Option JVal) (dflt : JVal) : JVal :=
  if truthyO a then a.getD dflt else dflt

/-- The body of the cron-job loop for one `job` entry: skip non-dicts,
derive the job key (`job.get("id") or job.get("name") or "unknown"`),
and when `lastRun`/`last_run` is truthy record a cron row at the
normalized timestamp (`float(last_run)/1000` when `float(last_run) >
1e10`, else `float(last_run)`; collection time `now` when `float`
raises). -/
def cron_job_step (now : ℚ) (db : DB) (job : JVal) : DB :=
  match job with
  | .obj fs =>
    let job_id := pyOrV (pyOr (jget fs "id") (jget fs "name")) (.str "unknown")
    let last_run := pyOr (jget fs "lastRun") (jget fs "last_run")
    if truthyO last_run then
      let last_ts :=
        match toFloat (last_run.getD .null) with
        | some f => if f > (10 : ℚ) ^ 10 then f / 1000 else f
        | none => now
      record_cron db last_ts (pyStr job_id) job
    else db
  | _ => db

/-- Collection sub-step 3 (`cron`): when the response is a dict, loop over
`jobs` (falling back to `crons`, then `[]`) if that value is a list, and
stash the raw response. -/
def step_cron (gw : Gateway) (now : ℚ) : DB × AllData → DB × AllData
  | (db, ad) =>
    match gw "cron" cronParams with
    | .raises => (db, ad)
    | .val resp =>
      match resp with
      | .obj fs =>
        (match jgetD fs "jobs" (jgetD fs "crons" (.arr [])) with
         | .arr l => l.foldl (cron_job_step now) db
         | _ => db,
         dictSet ad "cron" resp)
      | _ => (db, ad)

/-- Collection sub-step 4: insert the full snapshot row
`(now, 'snapshot', NULL, json.dumps(all_data))`. -/
def step_snapshot (now : ℚ) : DB × AllData → DB
  | (db, ad) =>
    { db with metrics := db.metrics ++ [⟨now, "snapshot", none, some (dumps (.obj ad))⟩] }

/-- `HistoryCollector._collect`: one collection cycle at time `now`,
threading the database and the `all_data` accumulator through the four
isolated sub-steps. -/
def collect (gw : Gateway) (now : ℚ) (db : DB) : DB :=
  step_snapshot now
    (step_cron gw now (step_sessions_list gw now (step_session_status gw now (db, []))))

/-- `HistoryCollector._run` unrolled over cycles: the database after `n`
collection cycles, where cycle `k` sees gateway behaviour `gws k` at
time `nows k`. -/
def run_cycles (gws : ℕ → Gateway) (nows : ℕ → ℚ) (db : DB) : ℕ → DB
  | 0 => db
  | n + 1 => collect (gws n) (nows n) (run_cycles gws nows db n)

/-- The thread-lifecycle state of a `HistoryCollector`: `thread` models
`self._thread` (`none` before any start; `some b` a thread object whose
`is_alive()` returns `b`), `live_workers` counts currently running
worker threads, `stop_set` models `self._stop_event.is_set()`. -/
structure CollectorState where
  thread : Option Bool
  live_workers : ℕ
  stop_set : Bool
deriving DecidableEq

/-- A freshly constructed collector: no thread, no workers, stop clear. -/
def CollectorState.fresh : CollectorState := ⟨none, 0, false⟩

/-- `HistoryCollector.start`: return immediately when `self._thread and
self._thread.is_alive()`, otherwise clear the stop event and spawn one
new (alive) worker thread. -/
def CollectorState.start (s : CollectorState) : CollectorState :=
  match s.thread with
  | some true => s
  | _ => { thread := some true, live_workers := s.live_workers + 1, stop_set := false }

/-- Exactly one of the two value columns of a metrics row is populated. -/
def metricExclusive (r : MetricRow) : Prop :=
  r.value.isSome ≠ r.value_text.isSome

/-- The C8 invariant over the whole metrics table. -/
def MetricsInv (db : DB) : Prop :=
  ∀ r ∈ db.metrics, metricExclusive r

/-- Two stored snapshots, at ts=100 and ts=200. -/
def snapDemoDB : DB :=
  ⟨[⟨100, "snapshot", none, some (dumps (.obj [("v", .num 1)]))⟩,
    ⟨200, "snapshot", none, some (dumps (.obj [("v", .num 2)]))⟩], [], []⟩

/-- A gateway whose `cron` method raises and whose other methods return a
status dict: the C4 failure scenario. -/
def gwC4 : Gateway := fun m _ =>
  if m = "cron" then .raises else .val (.obj [("cost_total", .num 5)])

/-- The total per-row transform of `query_sessions` on rows whose payload
either parses to an object or fails to parse (the non-raising cases of
`sessionRecordE`). -/
def sessionRecord (r : SessionRow) : JVal :=
  match loads r.data with
  | some (.obj fs) =>
      .obj (dictSet (dictSet fs "_ts" (.num r.ts)) "_session_key" (.str r.session_key))
  | _ =>
      .obj (dictSet (dictSet [("raw", .str r.data)] "_ts" (.num r.ts))
        "_session_key" (.str r.session_key))

/-- The total per-row transform of `query_crons`; see `sessionRecord`. -/
def cronRecord (r : CronRow) : JVal :=
  match loads r.data with
  | some (.obj fs) =>
      .obj (dictSet (dictSet fs "_ts" (.num r.ts)) "_job_id" (.str r.job_id))
  | _ =>
      .obj (dictSet (dictSet [("raw", .str r.data)] "_ts" (.num r.ts))
        "_job_id" (.str r.job_id))

instance : IsTotal SessionRow (fun a b => a.ts ≤ b.ts) :=
  ⟨fun a b => le_total a.ts b.ts⟩

instance : IsTrans SessionRow (fun a b => a.ts ≤ b.ts) :=
  ⟨fun _ _ _ hab hbc => le_trans hab hbc⟩

instance : IsTotal CronRow (fun a b => a.ts ≤ b.ts) :=
  ⟨fun a b => le_total a.ts b.ts⟩

instance : IsTrans CronRow (fun a b => a.ts ≤ b.ts) :=
  ⟨fun _ _ _ hab hbc => le_trans hab hbc⟩

/-- A session table holding one corrupt row (ts=10, invalid payload) and
one row whose payload is valid JSON but not an object (ts=20). -/
def c2DB : DB := ⟨[], [⟨10, "k", "not json"⟩, ⟨20, "k", "123"⟩], []⟩

/-- A store holding one corrupt session row and one corrupt cron row. -/
def rawDemoDB : DB := ⟨[], [⟨10, "k", "not json"⟩], [⟨7, "j", "nope"⟩]⟩

/-- A cron table holding one in-range row whose payload is valid JSON but
not an object. -/
def c7DB : DB := ⟨[], [], [⟨5, "j", "42"⟩]⟩

/-- A store holding one parseable session row and one parseable cron row. -/
def objDemoDB : DB :=
  ⟨[], [⟨10, "k", "\x7b\"a\": 1\x7d"⟩], [⟨7, "j", "\x7b\"b\": 2\x7d"⟩]⟩

/-- C10: passing the empty string as the session-key (job-id) filter behaves
exactly like passing no filter, because the filter argument is tested for
Python truthiness (`if session_key:`): the query returns every record in
the time range regardless of key. -/
theorem C10_empty_string_filter_is_no_filter (db : DB) (lo hi : ℚ) :
    query_sessions db lo hi (some "") = query_sessions db lo hi none ∧
    query_crons db lo hi (some "") = query_crons db lo hi none := by
  have hs : sessionInRange lo hi (some "") = sessionInRange lo hi none := by
    funext r; simp [sessionInRange, keyFilterActive]
  have hc : cronInRange lo hi (some "") = cronInRange lo hi none := by
    funext r; simp [cronInRange, keyFilterActive]
  constructor
  · unfold query_sessions; rw [hs]
  · unfold query_crons; rw [hc]

/-- C9: `start()` is idempotent: on an already-running collector it is a
no-op, so two consecutive `start()` calls leave exactly one running
worker (starting from a fresh collector, exactly one worker exists). -/
theorem C9_start_idempotent (s : CollectorState) :
    (s.thread = some true → s.start = s) ∧
    s.start.start = s.start ∧
    (CollectorState.fresh.start.start).live_workers = 1 := by
  refine ⟨fun h => ?_, ?_, rfl⟩
  · simp [CollectorState.start, h]
  · match h : s.thread with
    | none => simp [CollectorState.start, h]
    | some true => simp [CollectorState.start, h]
    | some false => simp [CollectorState.start, h]

/-- Witness for C9 at a concrete running state. -/
theorem C9_start_idempotent_witness :
    CollectorState.start ⟨some true, 1, false⟩ = ⟨some true, 1, false⟩ :=
  (C9_start_idempotent ⟨some true, 1, false⟩).1 rfl

theorem metricInsert_exclusive (ts : ℚ) (m : String) (v : JVal) :
    metricExclusive (metricInsert ts m v) := by
  cases v <;> simp [metricInsert, metricExclusive]

theorem record_metrics_inv {db : DB} (h : MetricsInv db) (ts : ℚ)
    (data : List (String × JVal)) : MetricsInv (record_metrics db ts data) := by
  intro r hr
  simp only [record_metrics, List.mem_append, List.mem_map] at hr
  rcases hr with hr | ⟨p, _, rfl⟩
  · exact h r hr
  · exact metricInsert_exclusive ts p.1 p.2

theorem cron_job_step_metrics (now : ℚ) (db : DB) (job : JVal) :
    (cron_job_step now db job).metrics = db.metrics := by
  cases job with
  | obj fs =>
    simp only [cron_job_step]
    split
    · rfl
    · rfl
  | null => rfl
  | bool b => rfl
  | num q => rfl
  | str s => rfl
  | arr xs => rfl

theorem foldl_cron_job_step_metrics (now : ℚ) (l : List JVal) :
    ∀ db : DB, (l.foldl (cron_job_step now) db).metrics = db.metrics := by
  induction l with
  | nil => intro db; rfl
  | cons x xs ih =>
    intro db
    rw [List.foldl_cons, ih, cron_job_step_metrics]

theorem cron_job_step_sessions (now : ℚ) (db : DB) (job : JVal) :
    (cron_job_step now db job).sessions = db.sessions := by
  cases job with
  | obj fs =>
    simp only [cron_job_step]
    split
    · rfl
    · rfl
  | null => rfl
  | bool b => rfl
  | num q => rfl
  | str s => rfl
  | arr xs => rfl

theorem step_session_status_inv {db : DB} {ad : AllData} (gw : Gateway)
    (now : ℚ) (h : MetricsInv db) :
    MetricsInv (step_session_status gw now (db, ad)).1 := by
  simp only [step_session_status]
  cases gw "session_status" (.obj []) with
  | raises => exact h
  | val status =>
    cases status with
    | obj fs =>
      dsimp only
      split
      · exact h
      · exact record_metrics_inv h now _
    | null => exact h
    | bool b => exact h
    | num q => exact h
    | str s => exact h
    | arr xs => exact h

theorem step_sessions_list_inv {db : DB} {ad : AllData} (gw : Gateway)
    (now : ℚ) (h : MetricsInv db) :
    MetricsInv (step_sessions_list gw now (db, ad)).1 := by
  simp only [step_sessions_list]
  cases gw "sessions_list" slParams with
  | raises => exact h
  | val resp =>
    cases resp with
    | obj fs =>
      dsimp only
      cases jgetD fs "sessions" (.arr []) with
      | arr l => exact record_metrics_inv h now _
      | null => exact h
      | bool b => exact h
      | num q => exact h
      | str s => exact h
      | obj gs => exact h
    | null => exact h
    | bool b => exact h
    | num q => exact h
    | str s => exact h
    | arr xs => exact h

theorem step_cron_inv {db : DB} {ad : AllData} (gw : Gateway)
    (now : ℚ) (h : MetricsInv db) :
    MetricsInv (step_cron gw now (db, ad)).1 := by
  simp only [step_cron]
  cases gw "cron" cronParams with
  | raises => exact h
  | val resp =>
    cases resp with
    | obj fs =>
      dsimp only
      cases jgetD fs "jobs" (jgetD fs "crons" (.arr [])) with
      | arr l =>
        intro r hr
        rw [foldl_cron_job_step_metrics] at hr
        exact h r hr
      | null => exact h
      | bool b => exact h
      | num q => exact h
      | str s => exact h
      | obj gs => exact h
    | null => exact h
    | bool b => exact h
    | num q => exact h
    | str s => exact h
    | arr xs => exact h

theorem step_snapshot_inv {db : DB} {ad : AllData} (now : ℚ)
    (h : MetricsInv db) : MetricsInv (step_snapshot now (db, ad)) := by
  intro r hr
  simp only [step_snapshot, List.mem_append, List.mem_singleton] at hr
  rcases hr with hr | rfl
  · exact h r hr
  · simp [metricExclusive]

theorem collect_inv {db : DB} (gw : Gateway) (now : ℚ) (h : MetricsInv db) :
    MetricsInv (collect gw now db) := by
  unfold collect
  have h1 := @step_session_status_inv db [] gw now h
  have h2 := @step_sessions_list_inv (step_session_status gw now (db, [])).1
    (step_session_status gw now (db, [])).2 gw now h1
  have h3 := @step_cron_inv
    (step_sessions_list gw now (step_session_status gw now (db, []))).1
    (step_sessions_list gw now (step_session_status gw now (db, []))).2 gw now h2
  exact step_snapshot_inv now h3

/-- C8: every insert path into the metrics table — `record_metrics` in its
dict form, `record_metrics` in its string (name, raw) form, and a full
collection cycle including the collector's snapshot insert — preserves
the invariant that exactly one of `value` / `value_text` is populated. -/
theorem C8_exactly_one_value_column (db : DB) (h : MetricsInv db) :
    (∀ (ts : ℚ) (data : List (String × JVal)),
      MetricsInv (record_metrics db ts data)) ∧
    (∀ (now : ℚ) (name : String) (raw : JVal),
      MetricsInv (record_metrics_str db now name raw)) ∧
    (∀ (gw : Gateway) (now : ℚ), MetricsInv (collect gw now db)) := by
  refine ⟨fun ts data => record_metrics_inv h ts data, fun now name raw => ?_, 
    fun gw now => collect_inv gw now h⟩
  intro r hr
  simp only [record_metrics_str, List.mem_append, List.mem_singleton] at hr
  rcases hr with hr | rfl
  · exact h r hr
  · exact metricInsert_exclusive now name raw

/-- Witness for C8: a one-row database written through each path keeps the
invariant. -/
theorem C8_exactly_one_value_column_witness :
    MetricsInv (record_metrics DB.empty 7 [("cost_total", .num 3), ("note", .str "x")]) :=
  (C8_exactly_one_value_column DB.empty (fun r hr => by simp [DB.empty] at hr)).1 7
    [("cost_total", .num 3), ("note", .str "x")]

theorem argminAbs_eq_none_iff (t : ℚ) (l : List (ℚ × String)) :
    argminAbs t l = none ↔ l = [] := by
  cases l with
  | nil => simp [argminAbs]
  | cons x xs => simp [argminAbs]

theorem argminAbs_mem_min (t : ℚ) :
    ∀ (l : List (ℚ × String)) (p : ℚ × String), argminAbs t l = some p →
      p ∈ l ∧ ∀ q ∈ l, |p.1 - t| ≤ |q.1 - t| := by
  intro l
  induction l with
  | nil => intro p h; simp [argminAbs] at h
  | cons x xs ih =>
    intro p h
    rw [argminAbs] at h
    cases hx : argminAbs t xs with
    | none =>
      have hxs : xs = [] := (argminAbs_eq_none_iff t xs).1 hx
      subst hxs
      rw [hx] at h
      simp only [Option.elim, Option.some.injEq] at h
      subst h
      refine ⟨List.mem_singleton_self x, ?_⟩
      intro q hq
      rw [List.mem_singleton] at hq
      subst hq
      exact le_refl _
    | some q0 =>
      rw [hx] at h
      simp only [Option.elim, Option.some.injEq] at h
      obtain ⟨hq0mem, hq0min⟩ := ih q0 hx
      by_cases hle : |x.1 - t| ≤ |q0.1 - t|
      · rw [if_pos hle] at h
        subst h
        refine ⟨List.mem_cons_self x xs, ?_⟩
        intro q hq
        rcases List.mem_cons.1 hq with rfl | hq
        · exact le_refl _
        · exact le_trans hle (hq0min q hq)
      · rw [if_neg hle] at h
        subst h
        refine ⟨List.mem_cons_of_mem x hq0mem, ?_⟩
        intro q hq
        rcases List.mem_cons.1 hq with rfl | hq
        · exact le_of_lt (lt_of_not_le hle)
        · exact hq0min q hq

theorem snapRows_iff (db : DB) (p : ℚ × String) :
    p ∈ snapRows db ↔
      ∃ r ∈ db.metrics, r.metric = "snapshot" ∧ r.ts = p.1 ∧
        r.value_text = some p.2 := by
  obtain ⟨p1, p2⟩ := p
  simp only [snapRows, List.mem_filterMap]
  constructor
  · rintro ⟨r, hr, hp⟩
    by_cases hm : (r.metric == "snapshot") = true
    · rw [if_pos hm] at hp
      cases ht : r.value_text with
      | none => rw [ht] at hp; exact Option.noConfusion hp
      | some s =>
        rw [ht] at hp
        simp only [Option.map_some', Option.some.injEq, Prod.mk.injEq] at hp
        obtain ⟨hts, hs⟩ := hp
        exact ⟨r, hr, eq_of_beq hm, hts, by rw [ht, hs]⟩
    · rw [if_neg hm] at hp
      exact absurd hp (by simp)
  · rintro ⟨r, hr, hm, hts, htext⟩
    refine ⟨r, hr, ?_⟩
    rw [if_pos (by rw [hm]; exact beq_self_eq_true "snapshot"), htext]
    simp [hts]

/-- C3: `query_snapshot` returns the payload of a stored `"snapshot"` row
whose timestamp has minimal absolute distance from the query timestamp
(ties broken by scan order), and an empty result when no snapshot row
exists; with snapshots at ts=100 and ts=200, querying at t=140 returns
the ts=100 payload and at t=160 the ts=200 payload. -/
theorem C3_nearest_snapshot (db : DB) (t : ℚ) :
    (snapRows db = [] → query_snapshot db t = .obj [("snapshot", .obj [])]) ∧
    (snapRows db ≠ [] → ∃ p ∈ snapRows db,
      (∀ q ∈ snapRows db, |p.1 - t| ≤ |q.1 - t|) ∧
      query_snapshot db t = .obj [("snapshot", parseOrRaw p.2)]) ∧
    (∀ p, p ∈ snapRows db ↔
      ∃ r ∈ db.metrics, r.metric = "snapshot" ∧ r.ts = p.1 ∧
        r.value_text = some p.2) ∧
    query_snapshot snapDemoDB 140 = .obj [("snapshot", .obj [("v", .num 1)])] ∧
    query_snapshot snapDemoDB 160 = .obj [("snapshot", .obj [("v", .num 2)])] := by
  refine ⟨?_, ?_, fun p => snapRows_iff db p, by with_unfolding_all rfl,
    by with_unfolding_all rfl⟩
  · intro h
    unfold query_snapshot
    rw [(argminAbs_eq_none_iff t (snapRows db)).2 h]
  · intro h
    unfold query_snapshot
    cases hx : argminAbs t (snapRows db) with
    | none => exact absurd ((argminAbs_eq_none_iff t (snapRows db)).1 hx) h
    | some p =>
      obtain ⟨hmem, hmin⟩ := argminAbs_mem_min t (snapRows db) p hx
      exact ⟨p, hmem, hmin, rfl⟩

/-- Witness for C3: the concrete two-snapshot database at t=140, and the
empty store giving the empty snapshot. -/
theorem C3_nearest_snapshot_witness :
    query_snapshot snapDemoDB 140 = .obj [("snapshot", .obj [("v", .num 1)])] ∧
    query_snapshot DB.empty 5 = .obj [("snapshot", .obj [])] :=
  ⟨(C3_nearest_snapshot snapDemoDB 140).2.2.2.1,
   (C3_nearest_snapshot DB.empty 5).1 rfl⟩

theorem bucketVals_ne_nil_iff (db : DB) (metric : String) (from_ts to_ts : ℚ)
    (interval : ℤ) (b : ℚ) :
    bucketVals db metric from_ts to_ts interval b ≠ [] ↔
      b ∈ (db.metrics.filter (metricMatch metric from_ts to_ts)).map
        (fun r => bucket interval r.ts) := by
  constructor
  · intro h
    obtain ⟨v, hv⟩ := List.exists_mem_of_ne_nil _ h
    obtain ⟨r, hr, hrv⟩ := List.mem_filterMap.1 hv
    by_cases hb : bucket interval r.ts = b
    · exact List.mem_map.2 ⟨r, hr, hb⟩
    · rw [if_neg hb] at hrv
      exact Option.noConfusion hrv
  · intro h
    obtain ⟨r, hr, hb⟩ := List.mem_map.1 h
    have hmatch := (List.mem_filter.1 hr).2
    simp only [metricMatch, decide_eq_true_eq] at hmatch
    obtain ⟨v, hv⟩ := Option.isSome_iff_exists.1 hmatch.2.2.2
    exact List.ne_nil_of_mem
      (List.mem_filterMap.2 ⟨r, hr, by rw [if_pos hb, hv]⟩)

theorem query_metrics_map_fst (db : DB) (metric : String) (from_ts to_ts : ℚ)
    (interval : ℤ) :
    (query_metrics db metric from_ts to_ts interval).map Prod.fst =
      ((db.metrics.filter (metricMatch metric from_ts to_ts)).map
        (fun r => bucket interval r.ts)).dedup.insertionSort (· ≤ ·) := by
  unfold query_metrics
  rw [List.map_map,
    show (Prod.fst ∘ fun b =>
      ((b : ℚ), avg (bucketVals db metric from_ts to_ts interval b))) = id from rfl,
    List.map_id]

theorem query_metrics_mem_fst (db : DB) (metric : String) (from_ts to_ts : ℚ)
    (interval : ℤ) (b : ℚ) :
    b ∈ (query_metrics db metric from_ts to_ts interval).map Prod.fst ↔
      b ∈ (db.metrics.filter (metricMatch metric from_ts to_ts)).map
        (fun r => bucket interval r.ts) := by
  rw [query_metrics_map_fst,
    (List.perm_insertionSort (· ≤ ·) _).mem_iff, List.mem_dedup]

/-- C1: `query_metrics` buckets the rows matching the metric name and the
inclusive time range (null numeric values excluded) by
`floor(ts/interval)*interval`, returns the arithmetic mean per bucket as
`(bucketStart, average)` pairs strictly ascending by bucket start, omits
empty buckets and omits no non-empty one; with interval 300, ts 305 and
595 land in bucket 300 and ts 600 in bucket 600. -/
theorem C1_query_metrics_bucketing (db : DB) (metric : String)
    (from_ts to_ts : ℚ) (interval : ℤ) (hI : 0 < interval) :
    List.Sorted (· < ·)
      ((query_metrics db metric from_ts to_ts interval).map Prod.fst) ∧
    (∀ p ∈ query_metrics db metric from_ts to_ts interval,
      bucketVals db metric from_ts to_ts interval p.1 ≠ [] ∧
      p.2 = avg (bucketVals db metric from_ts to_ts interval p.1)) ∧
    (∀ r ∈ db.metrics, metricMatch metric from_ts to_ts r = true →
      bucket interval r.ts ∈
        (query_metrics db metric from_ts to_ts interval).map Prod.fst) ∧
    (∀ b : ℚ, bucketVals db metric from_ts to_ts interval b = [] →
      b ∉ (query_metrics db metric from_ts to_ts interval).map Prod.fst) ∧
    bucket 300 305 = 300 ∧ bucket 300 595 = 300 ∧ bucket 300 600 = 600 := by
  refine ⟨?_, ?_, ?_, ?_, by with_unfolding_all rfl, by with_unfolding_all rfl,
    by with_unfolding_all rfl⟩
  · rw [query_metrics_map_fst]
    refine List.Sorted.lt_of_le (List.sorted_insertionSort (· ≤ ·) _) ?_
    exact ((List.perm_insertionSort (· ≤ ·) _).nodup_iff).2 (List.nodup_dedup _)
  · intro p hp
    unfold query_metrics at hp
    obtain ⟨b, hb, rfl⟩ := List.mem_map.1 hp
    refine ⟨?_, rfl⟩
    rw [bucketVals_ne_nil_iff]
    rw [(List.perm_insertionSort (· ≤ ·) _).mem_iff, List.mem_dedup] at hb
    exact hb
  · intro r hr hmatch
    exact (query_metrics_mem_fst db metric from_ts to_ts interval _).2
      (List.mem_map.2 ⟨r, List.mem_filter.2 ⟨hr, hmatch⟩, rfl⟩)
  · intro b hempty hmem
    exact (bucketVals_ne_nil_iff db metric from_ts to_ts interval b).2
      ((query_metrics_mem_fst db metric from_ts to_ts interval b).1 hmem) hempty

/-- Witness for C1 at interval 300 on the empty store. -/
theorem C1_query_metrics_bucketing_witness :
    bucket 300 305 = 300 ∧ bucket 300 595 = 300 ∧ bucket 300 600 = 600 :=
  (C1_query_metrics_bucketing DB.empty "m" 0 1000 300 (by decide)).2.2.2.2

theorem foldl_writes_metrics (metric : String) :
    ∀ (writes : List (ℚ × ℚ)) (db : DB),
      (writes.foldl (fun d w => record_metrics d w.1 [(metric, .num w.2)]) db).metrics
        = db.metrics ++
          writes.map (fun w => (⟨w.1, metric, some w.2, none⟩ : MetricRow)) := by
  intro writes
  induction writes with
  | nil => intro db; simp
  | cons w ws ih =>
    intro db
    rw [List.foldl_cons, ih]
    simp [record_metrics, metricInsert]

theorem filterMap_write_rows (interval : ℤ) (b : ℚ) (metric : String) :
    ∀ writes : List (ℚ × ℚ), (∀ w ∈ writes, bucket interval w.1 = b) →
      (writes.map (fun w => (⟨w.1, metric, some w.2, none⟩ : MetricRow))).filterMap
          (fun r => if bucket interval r.ts = b then r.value else none)
        = writes.map Prod.snd := by
  intro writes
  induction writes with
  | nil => intro _; rfl
  | cons w ws ih =>
    intro h
    have hw : bucket interval w.1 = b := h w (List.mem_cons_self w ws)
    simp only [List.map_cons, List.filterMap_cons]
    rw [if_pos hw]
    rw [ih (fun x hx => h x (List.mem_cons_of_mem w hx))]

theorem dedup_of_forall_eq {b : ℚ} :
    ∀ l : List ℚ, l ≠ [] → (∀ x ∈ l, x = b) → l.dedup = [b] := by
  intro l
  induction l with
  | nil => intro h _; exact absurd rfl h
  | cons x xs ih =>
    intro _ hall
    have hx : x = b := hall x (List.mem_cons_self x xs)
    subst hx
    cases xs with
    | nil => simp
    | cons y ys =>
      have hy : y = x := hall y (List.mem_cons_of_mem x (List.mem_cons_self y ys))
      have hmem : x ∈ y :: ys := by rw [hy]; exact List.mem_cons_self x ys
      rw [List.dedup_cons_of_mem hmem]
      exact ih (List.cons_ne_nil y ys)
        (fun z hz => hall z (List.mem_cons_of_mem x hz))

theorem query_after_writes (db : DB) (metric : String) (lo hi : ℚ)
    (interval : ℤ) (b : ℚ) (writes : List (ℚ × ℚ))
    (hne : writes ≠ [])
    (hw : ∀ w ∈ writes, lo ≤ w.1 ∧ w.1 ≤ hi ∧ bucket interval w.1 = b)
    (hdb : ∀ r ∈ db.metrics, metricMatch metric lo hi r = false) :
    query_metrics
        (writes.foldl (fun d w => record_metrics d w.1 [(metric, .num w.2)]) db)
        metric lo hi interval
      = [(b, avg (writes.map Prod.snd))] := by
  have hrows : ((writes.foldl (fun d w => record_metrics d w.1 [(metric, .num w.2)]) db).metrics).filter
      (metricMatch metric lo hi)
      = writes.map (fun w => (⟨w.1, metric, some w.2, none⟩ : MetricRow)) := by
    rw [foldl_writes_metrics, List.filter_append]
    have h1 : db.metrics.filter (metricMatch metric lo hi) = [] := by
      rw [List.filter_eq_nil_iff]
      intro r hr
      rw [hdb r hr]
      exact Bool.false_ne_true
    have h2 : (writes.map (fun w => (⟨w.1, metric, some w.2, none⟩ : MetricRow))).filter
        (metricMatch metric lo hi)
        = writes.map (fun w => (⟨w.1, metric, some w.2, none⟩ : MetricRow)) := by
      rw [List.filter_eq_self]
      intro r hr
      obtain ⟨w, hwmem, rfl⟩ := List.mem_map.1 hr
      obtain ⟨h1, h2, _⟩ := hw w hwmem
      simp [metricMatch, h1, h2]
    rw [h1, h2, List.nil_append]
  have hkeys : ((writes.foldl (fun d w => record_metrics d w.1 [(metric, .num w.2)]) db).metrics.filter
        (metricMatch metric lo hi)).map (fun r => bucket interval r.ts)
      = writes.map (fun w => bucket interval w.1) := by
    rw [hrows, List.map_map]
    rfl
  unfold query_metrics
  rw [hkeys]
  have hdedup : (writes.map (fun w => bucket interval w.1)).dedup = [b] := by
    apply dedup_of_forall_eq
    · simp only [ne_eq, List.map_eq_nil_iff]
      exact hne
    · intro x hx
      obtain ⟨w, hwmem, rfl⟩ := List.mem_map.1 hx
      exact (hw w hwmem).2.2
  rw [hdedup]
  have hsort : ([b] : List ℚ).insertionSort (· ≤ ·) = [b] := rfl
  rw [hsort]
  have hvals : bucketVals
      (writes.foldl (fun d w => record_metrics d w.1 [(metric, .num w.2)]) db)
      metric lo hi interval b = writes.map Prod.snd := by
    unfold bucketVals
    rw [hrows]
    exact filterMap_write_rows interval b metric writes (fun w hwmem => (hw w hwmem).2.2)
  rw [List.map_singleton, hvals]

/-- C6: on a store with no matching rows in range, recording a batch of
numeric values all landing in one bucket and querying back yields that
single bucket with the arithmetic mean of the written values; in
particular a single write of `v` at `t` comes back as the bucket average
`v`. -/
theorem C6_round_trip (db : DB) (metric : String) (lo hi : ℚ) (interval : ℤ)
    (b : ℚ) (writes : List (ℚ × ℚ))
    (hne : writes ≠ [])
    (hw : ∀ w ∈ writes, lo ≤ w.1 ∧ w.1 ≤ hi ∧ bucket interval w.1 = b)
    (hdb : ∀ r ∈ db.metrics, metricMatch metric lo hi r = false) :
    query_metrics
        (writes.foldl (fun d w => record_metrics d w.1 [(metric, .num w.2)]) db)
        metric lo hi interval
      = [(b, avg (writes.map Prod.snd))] ∧
    (∀ t v : ℚ, lo ≤ t → t ≤ hi →
      query_metrics (record_metrics db t [(metric, .num v)]) metric lo hi interval
        = [(bucket interval t, v)]) := by
  refine ⟨query_after_writes db metric lo hi interval b writes hne hw hdb, ?_⟩
  intro t v hlo hhi
  have hw1 : ∀ w ∈ [((t : ℚ), (v : ℚ))],
      lo ≤ w.1 ∧ w.1 ≤ hi ∧ bucket interval w.1 = bucket interval t := by
    intro w hwmem
    rw [List.mem_singleton] at hwmem
    subst hwmem
    exact ⟨hlo, hhi, rfl⟩
  have h := query_after_writes db metric lo hi interval (bucket interval t) [(t, v)]
    (List.cons_ne_nil _ _) hw1 hdb
  have havg : avg ([((t : ℚ), (v : ℚ))].map Prod.snd) = v := by
    simp [avg]
  exact h.trans (by rw [havg])

/-- Witness for C6: two writes into bucket 300 on the empty store average
to 15. -/
theorem C6_round_trip_witness :
    query_metrics
        (([((305 : ℚ), (10 : ℚ)), (595, 20)]).foldl
          (fun d w => record_metrics d w.1 [("m", .num w.2)]) DB.empty)
        "m" 0 1000 300
      = [(300, 15)] := by
  have h := (C6_round_trip DB.empty "m" 0 1000 300 300 [(305, 10), (595, 20)]
    (List.cons_ne_nil _ _)
    (by with_unfolding_all decide)
    (by intro r hr; exact absurd hr (List.not_mem_nil r))).1
  rw [h]
  with_unfolding_all rfl

theorem record_metrics_mem {db : DB} {r : MetricRow} (h : r ∈ db.metrics)
    (ts : ℚ) (data : List (String × JVal)) :
    r ∈ (record_metrics db ts data).metrics :=
  List.mem_append_left _ h

theorem step_session_status_metrics_mem (gw : Gateway) (now : ℚ)
    {db : DB} {ad : AllData} {r : MetricRow} (h : r ∈ db.metrics) :
    r ∈ (step_session_status gw now (db, ad)).1.metrics := by
  simp only [step_session_status]
  cases gw "session_status" (.obj []) with
  | raises => exact h
  | val status =>
    cases status with
    | obj fs =>
      dsimp only
      split
      · exact h
      · exact record_metrics_mem h now _
    | null => exact h
    | bool b => exact h
    | num q => exact h
    | str s => exact h
    | arr xs => exact h

theorem step_sessions_list_metrics_mem (gw : Gateway) (now : ℚ)
    {db : DB} {ad : AllData} {r : MetricRow} (h : r ∈ db.metrics) :
    r ∈ (step_sessions_list gw now (db, ad)).1.metrics := by
  simp only [step_sessions_list]
  cases gw "sessions_list" slParams with
  | raises => exact h
  | val resp =>
    cases resp with
    | obj fs =>
      dsimp only
      cases jgetD fs "sessions" (.arr []) with
      | arr l => exact record_metrics_mem h now _
      | null => exact h
      | bool b => exact h
      | num q => exact h
      | str s => exact h
      | obj gs => exact h
    | null => exact h
    | bool b => exact h
    | num q => exact h
    | str s => exact h
    | arr xs => exact h

theorem step_cron_metrics_mem (gw : Gateway) (now : ℚ)
    {db : DB} {ad : AllData} {r : MetricRow} (h : r ∈ db.metrics) :
    r ∈ (step_cron gw now (db, ad)).1.metrics := by
  simp only [step_cron]
  cases gw "cron" cronParams with
  | raises => exact h
  | val resp =>
    cases resp with
    | obj fs =>
      dsimp only
      cases jgetD fs "jobs" (jgetD fs "crons" (.arr [])) with
      | arr l => rw [foldl_cron_job_step_metrics]; exact h
      | null => exact h
      | bool b => exact h
      | num q => exact h
      | str s => exact h
      | obj gs => exact h
    | null => exact h
    | bool b => exact h
    | num q => exact h
    | str s => exact h
    | arr xs => exact h

theorem collect_metrics_mem (gw : Gateway) (now : ℚ) {db : DB} {r : MetricRow}
    (h : r ∈ db.metrics) : r ∈ (collect gw now db).metrics := by
  unfold collect
  exact List.mem_append_left _
    (step_cron_metrics_mem gw now
      (step_sessions_list_metrics_mem gw now
        (step_session_status_metrics_mem gw now h)))

theorem collect_snapshot_row (gw : Gateway) (now : ℚ) (db : DB) :
    ∃ txt, (⟨now, "snapshot", none, some txt⟩ : MetricRow)
      ∈ (collect gw now db).metrics := by
  unfold collect
  exact ⟨_, List.mem_append_right _ (List.mem_singleton_self _)⟩

theorem step_session_status_crons (gw : Gateway) (now : ℚ) (db : DB)
    (ad : AllData) : (step_session_status gw now (db, ad)).1.crons = db.crons := by
  simp only [step_session_status]
  cases gw "session_status" (.obj []) with
  | raises => rfl
  | val status =>
    cases status with
    | obj fs =>
      dsimp only
      split
      · rfl
      · rfl
    | null => rfl
    | bool b => rfl
    | num q => rfl
    | str s => rfl
    | arr xs => rfl

theorem step_sessions_list_crons (gw : Gateway) (now : ℚ) (db : DB)
    (ad : AllData) : (step_sessions_list gw now (db, ad)).1.crons = db.crons := by
  simp only [step_sessions_list]
  cases gw "sessions_list" slParams with
  | raises => rfl
  | val resp =>
    cases resp with
    | obj fs =>
      dsimp only
      cases jgetD fs "sessions" (.arr []) with
      | arr l => rfl
      | null => rfl
      | bool b => rfl
      | num q => rfl
      | str s => rfl
      | obj gs => rfl
    | null => rfl
    | bool b => rfl
    | num q => rfl
    | str s => rfl
    | arr xs => rfl

theorem step_cron_crons_garbage (gw : Gateway) (now : ℚ) (db : DB) (ad : AllData)
    (h : gw "cron" cronParams = .raises ∨
      ∃ v, gw "cron" cronParams = .val v ∧ ∀ fs, v ≠ .obj fs) :
    (step_cron gw now (db, ad)).1 = db := by
  simp only [step_cron]
  rcases h with h | ⟨v, hv, hobj⟩
  · rw [h]
  · rw [hv]
    cases v with
    | obj fs => exact absurd rfl (hobj fs)
    | null => rfl
    | bool b => rfl
    | num q => rfl
    | str s => rfl
    | arr xs => rfl

theorem step_session_status_records (gw : Gateway) (now : ℚ) (db : DB)
    (ad : AllData) (fs : List (String × JVal))
    (hgw : gw "session_status" (.obj []) = .val (.obj fs)) :
    ∀ p ∈ statusMetricsData fs,
      metricInsert now p.1 p.2 ∈ (step_session_status gw now (db, ad)).1.metrics := by
  intro p hp
  simp only [step_session_status, hgw]
  split
  · rename_i hempt
    rw [List.isEmpty_iff] at hempt
    rw [hempt] at hp
    exact absurd hp (List.not_mem_nil p)
  · exact List.mem_append_right _ (List.mem_map.2 ⟨p, hp, rfl⟩)

theorem step_sessions_list_records (gw : Gateway) (now : ℚ) (db : DB)
    (ad : AllData) (fs : List (String × JVal)) (l : List JVal)
    (hgw : gw "sessions_list" slParams = .val (.obj fs))
    (hl : jgetD fs "sessions" (.arr []) = .arr l) :
    (⟨now, "sessions_active", some ((l.length : ℚ)), none⟩ : MetricRow)
      ∈ (step_sessions_list gw now (db, ad)).1.metrics := by
  simp only [step_sessions_list, hgw]
  rw [hl]
  exact List.mem_append_right _ (List.mem_singleton_self _)

/-- C4: sub-steps of a collection cycle are isolated.  When the `cron`
gateway call raises or returns a non-dict, the `session_status` metrics
and the `sessions_active` metric of the same cycle are still recorded,
a snapshot row is still written, nothing is written to `crons`, and the
pure cycle loop keeps producing one snapshot row per cycle for every
gateway behaviour (the collector loop never dies). -/
theorem C4_step_isolation (gw : Gateway) (now : ℚ) (db : DB)
    (hcron : gw "cron" cronParams = .raises ∨
      ∃ v, gw "cron" cronParams = .val v ∧ ∀ fs, v ≠ .obj fs) :
    (∀ fs, gw "session_status" (.obj []) = .val (.obj fs) →
      ∀ p ∈ statusMetricsData fs,
        metricInsert now p.1 p.2 ∈ (collect gw now db).metrics) ∧
    (∀ fs l, gw "sessions_list" slParams = .val (.obj fs) →
      jgetD fs "sessions" (.arr []) = .arr l →
      (⟨now, "sessions_active", some ((l.length : ℚ)), none⟩ : MetricRow)
        ∈ (collect gw now db).metrics) ∧
    (∃ txt, (⟨now, "snapshot", none, some txt⟩ : MetricRow)
      ∈ (collect gw now db).metrics) ∧
    (collect gw now db).crons = db.crons ∧
    (∀ (gws : ℕ → Gateway) (nows : ℕ → ℚ) (n k : ℕ), k < n →
      ∃ txt, (⟨nows k, "snapshot", none, some txt⟩ : MetricRow)
        ∈ (run_cycles gws nows db n).metrics) := by
  refine ⟨?_, ?_, collect_snapshot_row gw now db, ?_, ?_⟩
  · intro fs hgw p hp
    unfold collect
    exact List.mem_append_left _
      (step_cron_metrics_mem gw now
        (step_sessions_list_metrics_mem gw now
          (step_session_status_records gw now db [] fs hgw p hp)))
  · intro fs l hgw hl
    unfold collect
    exact List.mem_append_left _
      (step_cron_metrics_mem gw now
        (step_sessions_list_records gw now _ _ fs l hgw hl))
  · unfold collect
    show (step_cron gw now (step_sessions_list gw now
      (step_session_status gw now (db, [])))).1.crons = db.crons
    rw [step_cron_crons_garbage gw now _ _ hcron,
      step_sessions_list_crons, step_session_status_crons]
  · intro gws nows n
    induction n with
    | zero => intro k hk; exact absurd hk (Nat.not_lt_zero k)
    | succ m ih =>
      intro k hk
      rcases Nat.lt_succ_iff_lt_or_eq.1 hk with h | rfl
      · obtain ⟨txt, ht⟩ := ih k h
        exact ⟨txt, collect_metrics_mem (gws m) (nows m) ht⟩
      · exact collect_snapshot_row (gws k) (nows k) (run_cycles gws nows db k)

/-- Witness for C4: with a raising `cron` call the cost metric is still
recorded and nothing lands in `crons`. -/
theorem C4_step_isolation_witness :
    metricInsert 5 "cost_total" (.num 5) ∈ (collect gwC4 5 DB.empty).metrics ∧
    (collect gwC4 5 DB.empty).crons = [] := by
  have h := C4_step_isolation gwC4 5 DB.empty (Or.inl rfl)
  refine ⟨h.1 [("cost_total", .num 5)] rfl ("cost_total", .num 5) ?_, h.2.2.2.1⟩
  show ("cost_total", JVal.num 5) ∈ [("cost_total", JVal.num 5)]
  exact List.mem_singleton_self _

theorem dictSet_mem {fs : List (String × JVal)} {k : String} {v : JVal}
    {p : String × JVal} (hp : p ∈ dictSet fs k v) : p ∈ fs ∨ p.1 = k := by
  unfold dictSet at hp
  split at hp
  · obtain ⟨q, hq, hpq⟩ := List.mem_map.1 hp
    split at hpq
    · rw [← hpq]
      exact Or.inr rfl
    · rw [← hpq]
      exact Or.inl hq
  · rcases List.mem_append.1 hp with h | h
    · exact Or.inl h
    · rw [List.mem_singleton] at h
      rw [h]
      exact Or.inr rfl

theorem dictSet_of_forall_ne {fs : List (String × JVal)} {k : String} {v : JVal}
    (h : ∀ p ∈ fs, p.1 ≠ k) : dictSet fs k v = fs ++ [(k, v)] := by
  unfold dictSet
  rw [if_neg]
  simp only [List.any_eq_true, decide_eq_true_eq, not_exists]
  intro p
  rw [not_and]
  exact h p

theorem step_session_status_ad (gw : Gateway) (now : ℚ) (db : DB) (ad : AllData) :
    ∀ p ∈ (step_session_status gw now (db, ad)).2, p ∈ ad ∨ p.1 = "session_status" := by
  simp only [step_session_status]
  cases gw "session_status" (.obj []) with
  | raises => intro p hp; exact Or.inl hp
  | val status =>
    cases status with
    | obj fs => intro p hp; exact dictSet_mem hp
    | null => intro p hp; exact Or.inl hp
    | bool b => intro p hp; exact Or.inl hp
    | num q => intro p hp; exact Or.inl hp
    | str s => intro p hp; exact Or.inl hp
    | arr xs => intro p hp; exact Or.inl hp

theorem step_sessions_list_ad (gw : Gateway) (now : ℚ) (db : DB) (ad : AllData) :
    ∀ p ∈ (step_sessions_list gw now (db, ad)).2, p ∈ ad ∨ p.1 = "sessions_list" := by
  simp only [step_sessions_list]
  cases gw "sessions_list" slParams with
  | raises => intro p hp; exact Or.inl hp
  | val resp =>
    cases resp with
    | obj fs =>
      dsimp only
      cases jgetD fs "sessions" (.arr []) with
      | arr l => intro p hp; exact dictSet_mem hp
      | null => intro p hp; exact Or.inl hp
      | bool b => intro p hp; exact Or.inl hp
      | num q => intro p hp; exact Or.inl hp
      | str s => intro p hp; exact Or.inl hp
      | obj gs => intro p hp; exact Or.inl hp
    | null => intro p hp; exact Or.inl hp
    | bool b => intro p hp; exact Or.inl hp
    | num q => intro p hp; exact Or.inl hp
    | str s => intro p hp; exact Or.inl hp
    | arr xs => intro p hp; exact Or.inl hp

theorem step_cron_ad (gw : Gateway) (now : ℚ) (db : DB) (ad : AllData)
    (gfs : List (String × JVal)) (hgw : gw "cron" cronParams = .val (.obj gfs)) :
    (step_cron gw now (db, ad)).2 = dictSet ad "cron" (.obj gfs) := by
  simp only [step_cron, hgw]

theorem truthyO_some (v : JVal) : truthyO (some v) = truthy v := rfl

/-- C5: for a cron job entry with a truthy last-run value the collector
records one cron row at the normalized timestamp (divide by 1000 when
the float exceeds 1e10, else use as-is) keyed by `str` of the job's id,
falling back to its name and then `"unknown"`; `lastRun` 1700000000000
(ms) and 1700000000 (s) store the same timestamp 1700000000; a job with
no (or falsy) last-run gets no cron row but any job of a dict response
is still contained in the raw snapshot written for the cycle. -/
theorem C5_cron_last_run (now : ℚ) (db : DB) (fs : List (String × JVal)) :
    (∀ v q, pyOr (jget fs "lastRun") (jget fs "last_run") = some v →
      truthy v = true → toFloat v = some q →
      (cron_job_step now db (.obj fs)).crons =
        db.crons ++ [⟨if q > (10 : ℚ) ^ 10 then q / 1000 else q,
          pyStr (pyOrV (pyOr (jget fs "id") (jget fs "name")) (.str "unknown")),
          dumps (.obj fs)⟩]) ∧
    (∀ v, jget fs "id" = some v → truthy v = true →
      pyOrV (pyOr (jget fs "id") (jget fs "name")) (.str "unknown") = v) ∧
    (∀ v, truthyO (jget fs "id") = false → jget fs "name" = some v →
      truthy v = true →
      pyOrV (pyOr (jget fs "id") (jget fs "name")) (.str "unknown") = v) ∧
    (truthyO (jget fs "id") = false → truthyO (jget fs "name") = false →
      pyOrV (pyOr (jget fs "id") (jget fs "name")) (.str "unknown")
        = .str "unknown") ∧
    (truthyO (pyOr (jget fs "lastRun") (jget fs "last_run")) = false →
      (cron_job_step now db (.obj fs)).crons = db.crons) ∧
    (∀ (gw : Gateway) (gfs : List (String × JVal)) (l : List JVal) (job : JVal),
      gw "cron" cronParams = .val (.obj gfs) →
      job ∈ l → jgetD gfs "jobs" (jgetD gfs "crons" (.arr [])) = .arr l →
      ∃ ad, (⟨now, "snapshot", none, some (dumps (.obj ad))⟩ : MetricRow)
          ∈ (collect gw now db).metrics ∧ ("cron", .obj gfs) ∈ ad) ∧
    ((cron_job_step now db
        (.obj [("id", .str "j"), ("lastRun", .num 1700000000000)])).crons
      = db.crons ++ [⟨1700000000, "j",
          dumps (.obj [("id", .str "j"), ("lastRun", .num 1700000000000)])⟩]) ∧
    ((cron_job_step now db
        (.obj [("id", .str "j"), ("lastRun", .num 1700000000)])).crons
      = db.crons ++ [⟨1700000000, "j",
          dumps (.obj [("id", .str "j"), ("lastRun", .num 1700000000)])⟩]) := by
  refine ⟨?_, ?_, ?_, ?_, ?_, ?_, by with_unfolding_all rfl, by with_unfolding_all rfl⟩
  · intro v q hor htr hf
    simp only [cron_job_step, hor, truthyO, htr, if_true, Option.getD_some, hf]
    rfl
  · intro v hv htr
    simp only [pyOr, pyOrV, hv, truthyO, htr, if_true, Option.getD_some]
  · intro v hid hname htr
    simp [pyOr, pyOrV, hid, hname, truthyO_some, htr]
  · intro hid hname
    simp [pyOr, pyOrV, hid, hname]
  · intro h
    simp only [cron_job_step, h, Bool.false_eq_true, if_false]
  · intro gw gfs l job hgw hjob hl
    refine ⟨(step_cron gw now (step_sessions_list gw now
      (step_session_status gw now (db, [])))).2, ?_, ?_⟩
    · unfold collect
      exact List.mem_append_right _ (List.mem_singleton_self _)
    · have h2 : ∀ p ∈ (step_sessions_list gw now
          (step_session_status gw now (db, []))).2, p.1 ≠ "cron" := by
        intro p hp
        rcases step_sessions_list_ad gw now _ _ p hp with h | h
        · rcases step_session_status_ad gw now db [] p h with h' | h'
          · exact absurd h' (List.not_mem_nil p)
          · rw [h']; decide
        · rw [h]; decide
      rw [step_cron_ad gw now _ _ gfs hgw, dictSet_of_forall_ne h2]
      exact List.mem_append_right _ (List.mem_singleton_self _)

/-- Witness for C5: the ms and s job entries store the same timestamp. -/
theorem C5_cron_last_run_witness :
    (cron_job_step 0 DB.empty
        (.obj [("id", .str "j"), ("lastRun", .num 1700000000000)])).crons
      = [⟨1700000000, "j",
          dumps (.obj [("id", .str "j"), ("lastRun", .num 1700000000000)])⟩] ∧
    (cron_job_step 0 DB.empty
        (.obj [("id", .str "j"), ("lastRun", .num 1700000000)])).crons
      = [⟨1700000000, "j",
          dumps (.obj [("id", .str "j"), ("lastRun", .num 1700000000)])⟩] :=
  ⟨(C5_cron_last_run 0 DB.empty []).2.2.2.2.2.2.1,
   (C5_cron_last_run 0 DB.empty []).2.2.2.2.2.2.2⟩

theorem mapE_ok_of_forall {α β : Type} {f : α → Except Unit β} {g : α → β} :
    ∀ {l : List α}, (∀ x ∈ l, f x = .ok (g x)) → mapE f l = .ok (l.map g) := by
  intro l
  induction l with
  | nil => intro _; rfl
  | cons x xs ih =>
    intro h
    simp only [mapE, h x (List.mem_cons_self x xs),
      ih (fun y hy => h y (List.mem_cons_of_mem x hy)), List.map_cons]

theorem sessionRecordE_ok {r : SessionRow}
    (h : ∀ v, loads r.data = some v → ∃ fs, v = .obj fs) :
    sessionRecordE r = .ok (sessionRecord r) := by
  unfold sessionRecordE sessionRecord
  cases hl : loads r.data with
  | none => rfl
  | some v =>
    obtain ⟨fs, rfl⟩ := h v hl
    rfl

theorem cronRecordE_ok {r : CronRow}
    (h : ∀ v, loads r.data = some v → ∃ fs, v = .obj fs) :
    cronRecordE r = .ok (cronRecord r) := by
  unfold cronRecordE cronRecord
  cases hl : loads r.data with
  | none => rfl
  | some v =>
    obtain ⟨fs, rfl⟩ := h v hl
    rfl

theorem sessionRecord_raw {r : SessionRow} (h : loads r.data = none) :
    sessionRecord r = .obj [("raw", .str r.data), ("_ts", .num r.ts),
      ("_session_key", .str r.session_key)] := by
  unfold sessionRecord
  rw [h]
  rfl

theorem cronRecord_raw {r : CronRow} (h : loads r.data = none) :
    cronRecord r = .obj [("raw", .str r.data), ("_ts", .num r.ts),
      ("_job_id", .str r.job_id)] := by
  unfold cronRecord
  rw [h]
  rfl

/-- Counterexample to C2 as stated: the corrupt row at ts=10 is inside the
queried range, yet the range scan raises (the non-object JSON payload
"123" of the other in-range row makes `d["_ts"] = ts` raise an
uncaught TypeError), so no record is returned for the corrupt row. -/
theorem C2_counterexample :
    loads "not json" = none ∧
    (0 : ℚ) ≤ 10 ∧ (10 : ℚ) ≤ 100 ∧
    query_sessions c2DB 0 100 none = .error () := by
  refine ⟨rfl, by norm_num, by norm_num, by with_unfolding_all rfl⟩

/-- C2 (amended): provided every in-range row's payload is either invalid
or parses to an object, a range query never raises, returns one record
per in-range row, and a corrupt row's record is the raw-wrapped payload
augmented with the reserved fields; symmetrically for crons. -/
theorem C2_corrupt_row_resilience (db : DB) (lo hi : ℚ) (filt : Option String)
    (hs : ∀ r ∈ db.sessions, sessionInRange lo hi filt r = true →
      ∀ v, loads r.data = some v → ∃ fs, v = .obj fs)
    (hc : ∀ r ∈ db.crons, cronInRange lo hi filt r = true →
      ∀ v, loads r.data = some v → ∃ fs, v = .obj fs) :
    (∃ l, query_sessions db lo hi filt = .ok l ∧
      l.length = (db.sessions.filter (sessionInRange lo hi filt)).length ∧
      ∀ r ∈ db.sessions, sessionInRange lo hi filt r = true →
        loads r.data = none →
        (JVal.obj [("raw", .str r.data), ("_ts", .num r.ts),
          ("_session_key", .str r.session_key)]) ∈ l) ∧
    (∃ l, query_crons db lo hi filt = .ok l ∧
      l.length = (db.crons.filter (cronInRange lo hi filt)).length ∧
      ∀ r ∈ db.crons, cronInRange lo hi filt r = true →
        loads r.data = none →
        (JVal.obj [("raw", .str r.data), ("_ts", .num r.ts),
          ("_job_id", .str r.job_id)]) ∈ l) := by
  constructor
  · have hall : ∀ x ∈ (db.sessions.filter (sessionInRange lo hi filt)).insertionSort
        (fun a b => a.ts ≤ b.ts), sessionRecordE x = .ok (sessionRecord x) := by
      intro x hx
      rw [(List.perm_insertionSort _ _).mem_iff, List.mem_filter] at hx
      exact sessionRecordE_ok (hs x hx.1 hx.2)
    refine ⟨_, mapE_ok_of_forall hall, ?_, ?_⟩
    · rw [List.length_map]
      exact (List.perm_insertionSort _ _).length_eq
    · intro r hr hin hnone
      rw [← sessionRecord_raw hnone]
      refine List.mem_map.2 ⟨r, ?_, rfl⟩
      rw [(List.perm_insertionSort _ _).mem_iff, List.mem_filter]
      exact ⟨hr, hin⟩
  · have hall : ∀ x ∈ (db.crons.filter (cronInRange lo hi filt)).insertionSort
        (fun a b => a.ts ≤ b.ts), cronRecordE x = .ok (cronRecord x) := by
      intro x hx
      rw [(List.perm_insertionSort _ _).mem_iff, List.mem_filter] at hx
      exact cronRecordE_ok (hc x hx.1 hx.2)
    refine ⟨_, mapE_ok_of_forall hall, ?_, ?_⟩
    · rw [List.length_map]
      exact (List.perm_insertionSort _ _).length_eq
    · intro r hr hin hnone
      rw [← cronRecord_raw hnone]
      refine List.mem_map.2 ⟨r, ?_, rfl⟩
      rw [(List.perm_insertionSort _ _).mem_iff, List.mem_filter]
      exact ⟨hr, hin⟩

/-- Witness for the amended C2: both corrupt rows come back raw-wrapped. -/
theorem C2_corrupt_row_resilience_witness :
    (∃ l, query_sessions rawDemoDB 0 100 none = .ok l ∧
      (JVal.obj [("raw", .str "not json"), ("_ts", .num 10),
        ("_session_key", .str "k")]) ∈ l) ∧
    (∃ l, query_crons rawDemoDB 0 100 none = .ok l ∧
      (JVal.obj [("raw", .str "nope"), ("_ts", .num 7),
        ("_job_id", .str "j")]) ∈ l) := by
  have hs : ∀ r ∈ rawDemoDB.sessions, sessionInRange 0 100 none r = true →
      ∀ v, loads r.data = some v → ∃ fs, v = .obj fs := by
    intro r hr _ v hv
    have hr' : r = (⟨10, "k", "not json"⟩ : SessionRow) := by
      simpa [rawDemoDB] using hr
    subst hr'
    rw [show loads "not json" = none from rfl] at hv
    exact Option.noConfusion hv
  have hc : ∀ r ∈ rawDemoDB.crons, cronInRange 0 100 none r = true →
      ∀ v, loads r.data = some v → ∃ fs, v = .obj fs := by
    intro r hr _ v hv
    have hr' : r = (⟨7, "j", "nope"⟩ : CronRow) := by
      simpa [rawDemoDB] using hr
    subst hr'
    rw [show loads "nope" = none from rfl] at hv
    exact Option.noConfusion hv
  obtain ⟨⟨l1, hok1, _, hmem1⟩, ⟨l2, hok2, _, hmem2⟩⟩ :=
    C2_corrupt_row_resilience rawDemoDB 0 100 none hs hc
  exact ⟨⟨l1, hok1, hmem1 ⟨10, "k", "not json"⟩ (List.mem_singleton_self _)
      (by with_unfolding_all rfl) rfl⟩,
    ⟨l2, hok2, hmem2 ⟨7, "j", "nope"⟩ (List.mem_singleton_self _)
      (by with_unfolding_all rfl) rfl⟩⟩

/-- Counterexample to C7 as stated: the stored row at ts=5 is in range, but
instead of returning that record augmented with `_ts`/`_job_id` the
query raises (uncaught TypeError from `d["_ts"] = ts` on the parsed
non-object payload), so it does not return the stored records. -/
theorem C7_counterexample :
    loads "42" = some (.num 42) ∧
    (0 : ℚ) ≤ 5 ∧ (5 : ℚ) ≤ 10 ∧
    query_crons c7DB 0 10 none = .error () := by
  refine ⟨by with_unfolding_all rfl, by norm_num, by norm_num,
    by with_unfolding_all rfl⟩

/-- C7 (amended): provided every in-range payload parses to a JSON object,
`query_sessions` (resp. `query_crons`) returns exactly the rows with
`fromTs ≤ ts ≤ toTs` passing the key filter, ordered ascending by
timestamp, each as the parsed stored payload augmented with `_ts` and
`_session_key` (resp. `_job_id`); an in-range payload that is valid
non-object JSON makes the query raise instead. -/
theorem C7_range_query_exact (db : DB) (lo hi : ℚ) (filt : Option String)
    (hs : ∀ r ∈ db.sessions, sessionInRange lo hi filt r = true →
      ∃ fs, loads r.data = some (.obj fs))
    (hc : ∀ r ∈ db.crons, cronInRange lo hi filt r = true →
      ∃ fs, loads r.data = some (.obj fs)) :
    (∃ rows : List SessionRow,
      rows.Perm (db.sessions.filter (sessionInRange lo hi filt)) ∧
      List.Sorted (fun a b => a.ts ≤ b.ts) rows ∧
      query_sessions db lo hi filt = .ok (rows.map sessionRecord)) ∧
    (∃ rows : List CronRow,
      rows.Perm (db.crons.filter (cronInRange lo hi filt)) ∧
      List.Sorted (fun a b => a.ts ≤ b.ts) rows ∧
      query_crons db lo hi filt = .ok (rows.map cronRecord)) ∧
    (∀ (r : SessionRow) (fs : List (String × JVal)),
      loads r.data = some (.obj fs) →
      sessionRecord r = .obj (dictSet (dictSet fs "_ts" (.num r.ts))
        "_session_key" (.str r.session_key))) ∧
    (∀ (r : CronRow) (fs : List (String × JVal)),
      loads r.data = some (.obj fs) →
      cronRecord r = .obj (dictSet (dictSet fs "_ts" (.num r.ts))
        "_job_id" (.str r.job_id))) := by
  refine ⟨?_, ?_, ?_, ?_⟩
  · have hall : ∀ x ∈ (db.sessions.filter (sessionInRange lo hi filt)).insertionSort
        (fun a b => a.ts ≤ b.ts), sessionRecordE x = .ok (sessionRecord x) := by
      intro x hx
      rw [(List.perm_insertionSort _ _).mem_iff, List.mem_filter] at hx
      obtain ⟨fs, hfs⟩ := hs x hx.1 hx.2
      refine sessionRecordE_ok ?_
      intro v hv
      rw [hfs, Option.some.injEq] at hv
      exact ⟨fs, hv.symm⟩
    exact ⟨_, List.perm_insertionSort _ _, List.sorted_insertionSort _ _,
      mapE_ok_of_forall hall⟩
  · have hall : ∀ x ∈ (db.crons.filter (cronInRange lo hi filt)).insertionSort
        (fun a b => a.ts ≤ b.ts), cronRecordE x = .ok (cronRecord x) := by
      intro x hx
      rw [(List.perm_insertionSort _ _).mem_iff, List.mem_filter] at hx
      obtain ⟨fs, hfs⟩ := hc x hx.1 hx.2
      refine cronRecordE_ok ?_
      intro v hv
      rw [hfs, Option.some.injEq] at hv
      exact ⟨fs, hv.symm⟩
    exact ⟨_, List.perm_insertionSort _ _, List.sorted_insertionSort _ _,
      mapE_ok_of_forall hall⟩
  · intro r fs h
    unfold sessionRecord
    rw [h]
  · intro r fs h
    unfold cronRecord
    rw [h]

/-- Witness for the amended C7: the concrete parsed-and-augmented results. -/
theorem C7_range_query_exact_witness :
    query_sessions objDemoDB 0 100 none =
      .ok [.obj [("a", .num 1), ("_ts", .num 10), ("_session_key", .str "k")]] ∧
    query_crons objDemoDB 0 100 none =
      .ok [.obj [("b", .num 2), ("_ts", .num 7), ("_job_id", .str "j")]] := by
  have hs : ∀ r ∈ objDemoDB.sessions, sessionInRange 0 100 none r = true →
      ∃ fs, loads r.data = some (.obj fs) := by
    intro r hr _
    have hr' : r = (⟨10, "k", "\x7b\"a\": 1\x7d"⟩ : SessionRow) := by
      simpa [objDemoDB] using hr
    subst hr'
    exact ⟨[("a", .num 1)], by with_unfolding_all rfl⟩
  have hc : ∀ r ∈ objDemoDB.crons, cronInRange 0 100 none r = true →
      ∃ fs, loads r.data = some (.obj fs) := by
    intro r hr _
    have hr' : r = (⟨7, "j", "\x7b\"b\": 2\x7d"⟩ : CronRow) := by
      simpa [objDemoDB] using hr
    subst hr'
    exact ⟨[("b", .num 2)], by with_unfolding_all rfl⟩
  obtain ⟨⟨rows1, _, _, hok1⟩, ⟨rows2, _, _, hok2⟩, _, _⟩ :=
    C7_range_query_exact objDemoDB 0 100 none hs hc
  have hq1 : query_sessions objDemoDB 0 100 none =
      .ok [.obj [("a", .num 1), ("_ts", .num 10), ("_session_key", .str "k")]] := by
    with_unfolding_all rfl
  have hq2 : query_crons objDemoDB 0 100 none =
      .ok [.obj [("b", .num 2), ("_ts", .num 7), ("_job_id", .str "j")]] := by
    with_unfolding_all rfl
  exact ⟨(hok1.symm.trans hq1) ▸ hq1, (hok2.symm.trans hq2) ▸ hq2⟩
